import Mathlib

/-!
A shallow embedding of the browser session state machine of the
GeminiSurfer repository (src/App.tsx, src/components/BrowserContent.tsx,
src/types.ts), together with theorems settling the specification claims.

The React `useState` store is modelled as an explicit `BrowserState`
value; each handler becomes a pure state-transformer.  The asynchronous
navigation pipeline is split into its synchronous part (`handleNavigate`,
which also reports whether a content fetch was issued) and the two
completion callbacks (`navSuccess`, `navFailure`), which are applied to
whatever state is current when the fetch settles — exactly as the
`setState(prev => ...)` callbacks in the source read the current state.
Machine integers: all JS numbers involved (history indices, timestamps,
lengths) are non-negative integers in the source, so they are modelled
as `Nat`, except the `findIndex` result in `closeTab`, which can be the
JS sentinel `-1` and is modelled as `Int`.  JS `localeCompare` on
strings is modelled as code-point lexicographic comparison (`lexLe`
below); JS `Array.prototype.sort` (stable since ES2019) is modelled as
`List.mergeSort`.  String primitives (`trim`, `startsWith`, `includes`,
`split`, `replace`, `encodeURIComponent`, `toLowerCase`, `toUpperCase`)
are implemented over the underlying character lists so that every
definition evaluates by kernel reduction.
-/

/-- From src/types.ts: `PageContent` (the `metadata.sources` list is
display-only provenance). -/
structure PageContent where
  title : String
  favicon : String
  htmlContent : String
  sources : List (String × String)
deriving Repr, DecidableEq

/-- From src/types.ts: `Tab`. -/
structure Tab where
  id : String
  url : String
  title : String
  favicon : String
  history : List String
  historyIndex : Nat
  isLoading : Bool
  content : Option PageContent
  error : Option String
  groupId : Option String
deriving Repr, DecidableEq

/-- From src/types.ts: `HistoryEntry` (global history log entry). -/
structure HistoryEntry where
  url : String
  title : String
  timestamp : Nat
deriving Repr, DecidableEq

/-- From src/types.ts: `Bookmark`. -/
structure Bookmark where
  url : String
  title : String
  favicon : String
  timestamp : Nat
deriving Repr, DecidableEq

/-- From src/types.ts: `Download` (data shape only; no lifecycle in the core). -/
structure Download where
  id : String
  filename : String
  url : String
  progress : Nat
  status : String
  timestamp : Nat
  size : String
deriving Repr, DecidableEq

/-- From src/types.ts: `TabGroup`. -/
structure TabGroup where
  id : String
  name : String
  color : String
deriving Repr, DecidableEq

/-- From src/types.ts: `BrowserState` (the single session-state object). -/
structure BrowserState where
  tabs : List Tab
  activeTabId : String
  globalHistory : List HistoryEntry
  bookmarks : List Bookmark
  downloads : List Download
  tabGroups : List TabGroup
  devToolsOpen : Bool
deriving Repr, DecidableEq

/-- From src/App.tsx lines 37-58: the initial `useState` value. -/
def initialState : BrowserState :=
  { tabs := [{ id := "1", url := "about:home", title := "New Tab", favicon := "",
               history := ["about:home"], historyIndex := 0, isLoading := false,
               content := none, error := none, groupId := none }],
    activeTabId := "1",
    globalHistory := [], bookmarks := [], downloads := [], tabGroups := [],
    devToolsOpen := false }

/-- Boolean test that `pat` is a prefix of `hay` (JS `startsWith` on char lists). -/
def startsWithSeq : List Char → List Char → Bool
  | [], _ => true
  | _ :: _, [] => false
  | a :: as, b :: bs => a = b && startsWithSeq as bs

/-- JS `String.prototype.startsWith`. -/
def jsStartsWith (s pat : String) : Bool := startsWithSeq pat.data s.data

/-- JS `String.prototype.trim`: strip leading and trailing whitespace. -/
def jsTrim (s : String) : String :=
  String.mk ((((s.data.dropWhile Char.isWhitespace).reverse).dropWhile
    Char.isWhitespace).reverse)

/-- JS `String.prototype.split` with a single-character separator. -/
def splitOnChar (sep : Char) : List Char → List Char → List (List Char)
  | [], acc => [acc.reverse]
  | c :: rest, acc =>
    if c = sep then acc.reverse :: splitOnChar sep rest []
    else splitOnChar sep rest (c :: acc)

/-- Code-point lexicographic `≤` on char lists (the order `localeCompare`-based
sorting is modelled by). -/
def lexLe : List Char → List Char → Bool
  | [], _ => true
  | _ :: _, [] => false
  | a :: as, b :: bs => a < b || (a = b && lexLe as bs)

/-- JS `String.prototype.replace` with a plain-string pattern replaces only the
first occurrence; helper on char lists. -/
def replaceFirstAux (pat rep : List Char) : List Char → List Char
  | [] => []
  | c :: rest =>
    if startsWithSeq pat (c :: rest) then rep ++ (c :: rest).drop pat.length
    else c :: replaceFirstAux pat rep rest

/-- JS `s.replace(pat, rep)` for a plain-string `pat`: first occurrence only
(empty pattern inserts `rep` at the start, as in JS). -/
def replaceFirst (s pat rep : String) : String :=
  if pat.data = [] then String.mk (rep.data ++ s.data)
  else String.mk (replaceFirstAux pat.data rep.data s.data)

/-- Hex digit for percent-encoding (uppercase, as `encodeURIComponent` emits). -/
def hexDigit (n : Nat) : Char :=
  if n < 10 then Char.ofNat (48 + n) else Char.ofNat (55 + n)

/-- One percent-encoded byte (0-255), e.g. `%3A`. -/
def byteToHex (b : Nat) : List Char :=
  ['%', hexDigit (b / 16), hexDigit (b % 16)]

/-- UTF-8 encoding of a Unicode code point, as byte values. -/
def utf8Bytes (n : Nat) : List Nat :=
  if n < 128 then [n]
  else if n < 2048 then [192 + n / 64, 128 + n % 64]
  else if n < 65536 then [224 + n / 4096, 128 + (n / 64) % 64, 128 + n % 64]
  else [240 + n / 262144, 128 + (n / 4096) % 64, 128 + (n / 64) % 64, 128 + n % 64]

/-- Characters `encodeURIComponent` leaves unescaped:
alphanumerics and `- _ . ! ~ * ' ( )` (code points 45 95 46 33 126 42 39 40 41). -/
def uriUnreserved (c : Char) : Bool :=
  c.isAlphanum || [45, 95, 46, 33, 126, 42, 39, 40, 41].contains c.toNat

/-- JS `encodeURIComponent`: unreserved characters kept, all others
percent-encoded as UTF-8 bytes. -/
def encodeURIComponent (s : String) : String :=
  String.mk (s.data.foldr
    (fun c acc =>
      if uriUnreserved c then c :: acc
      else ((utf8Bytes c.toNat).map byteToHex).flatten ++ acc)
    [])

/-- From src/App.tsx line 128: the `internalPages` allow-list inside
`handleNavigate` (note: it contains `chrome://settings` and `chrome://version`
but not `about:settings`). -/
def internalPages : List String :=
  ["about:history", "about:home", "about:bookmarks", "about:downloads",
   "about:downloads-folder", "about:version", "chrome://settings", "chrome://version"]

/-- From src/App.tsx line 129: the internal-page classification test
`internalPages.includes(cleanUrl) || cleanUrl.startsWith('chrome://')`. -/
def isInternalTarget (cleanUrl : String) : Bool :=
  internalPages.contains cleanUrl || jsStartsWith cleanUrl "chrome://"

/-- From src/App.tsx line 136: title of an internal page,
`displayUrl === 'about:home' ? 'New Tab' : displayUrl.split(':')[1].toUpperCase()`. -/
def internalTitle (displayUrl : String) : String :=
  if displayUrl = "about:home" then "New Tab"
  else String.mk ((((splitOnChar ':' displayUrl.data []).getD 1 []).map Char.toUpper))

/-- From src/App.tsx lines 131-144 and 155-165: both `setState` calls in
`handleNavigate` update exactly the tabs whose id equals the current
`activeTabId`, via `prev.tabs.map(t => t.id === prev.activeTabId ? f(t) : t)`. -/
def updateActiveTab (st : BrowserState) (f : Tab → Tab) : BrowserState :=
  { st with tabs := st.tabs.map fun t => if t.id = st.activeTabId then f t else t }

/-- From src/App.tsx lines 141-142 (and identically 162-163): per-tab history
bookkeeping of `handleNavigate`.  `history.slice(0, historyIndex + 1)` is
`List.take (historyIndex + 1)`. -/
def navHistory (t : Tab) (isFromHistory : Bool) (newUrl : String) : List String :=
  if isFromHistory then t.history else t.history.take (t.historyIndex + 1) ++ [newUrl]

/-- From src/App.tsx lines 142 and 163: the history cursor update. -/
def navHistoryIndex (t : Tab) (isFromHistory : Bool) : Nat :=
  if isFromHistory then t.historyIndex else t.historyIndex + 1

/-- From src/App.tsx lines 148-153: search-query / bare-domain / full-URL
resolution of a non-internal target. -/
def resolveUrl (cleanUrl : String) : String :=
  if !(cleanUrl.data.contains '.' && !cleanUrl.data.contains ' ') then
    "https://www.google.com/search?q=" ++ encodeURIComponent cleanUrl
  else if !jsStartsWith cleanUrl "http" then "https://" ++ cleanUrl
  else cleanUrl

/-- From src/App.tsx lines 122-165: the synchronous part of `handleNavigate`.
Returns the updated state together with `some resolvedUrl` exactly when a
content fetch (`simulatePageLoad`) is issued, and `none` on the no-op and
internal-page paths, which return before the fetch. -/
def handleNavigate (st : BrowserState) (targetUrl : String) (isFromHistory : Bool) :
    BrowserState × Option String :=
  let cleanUrl := jsTrim targetUrl
  if cleanUrl = "" then (st, none)
  else if isInternalTarget cleanUrl then
    let displayUrl := replaceFirst cleanUrl "chrome://" "about:"
    (updateActiveTab st fun t =>
      { t with url := displayUrl, title := internalTitle displayUrl, favicon := "",
               content := none, isLoading := false, error := none,
               history := navHistory t isFromHistory displayUrl,
               historyIndex := navHistoryIndex t isFromHistory }, none)
  else
    let resolved := resolveUrl cleanUrl
    (updateActiveTab st fun t =>
      { t with isLoading := true, url := resolved, error := none,
               history := navHistory t isFromHistory resolved,
               historyIndex := navHistoryIndex t isFromHistory }, some resolved)

/-- From src/App.tsx lines 169-173: the fetch-success callback.  It runs
against the state current at completion time and targets the tab whose id is
the *current* `prev.activeTabId`; `now` stands for `Date.now()`. -/
def navSuccess (st : BrowserState) (resolvedUrl : String) (content : PageContent)
    (now : Nat) : BrowserState :=
  { st with
    globalHistory :=
      ({ url := resolvedUrl, title := content.title, timestamp := now } ::
        st.globalHistory).take 100,
    tabs := st.tabs.map fun t =>
      if t.id = st.activeTabId then
        { t with isLoading := false, content := some content,
                 title := content.title, favicon := content.favicon }
      else t }

/-- From src/App.tsx lines 175-178: the fetch-failure callback, again keyed on
the completion-time `prev.activeTabId`. -/
def navFailure (st : BrowserState) : BrowserState :=
  { st with
    tabs := st.tabs.map fun t =>
      if t.id = st.activeTabId then
        { t with isLoading := false, error := some "Connection reset by peer. (Chromium Error)" }
      else t }

/-- From src/App.tsx line 68: `state.tabs.find(t => t.id === state.activeTabId) || state.tabs[0]`
(`none` marks the JS `undefined` that would crash any field access). -/
def activeTabOf (st : BrowserState) : Option Tab :=
  match st.tabs.find? (fun t => t.id = st.activeTabId) with
  | some t => some t
  | none => st.tabs.head?

/-- From src/App.tsx lines 182-190: `toggleBookmark`; `now` stands for
`Date.now()`.  `activeTab.title || activeTab.url` is the JS falsy-fallback on
the empty string. -/
def toggleBookmark (st : BrowserState) (now : Nat) : BrowserState :=
  match activeTabOf st with
  | none => st
  | some a =>
    if jsStartsWith a.url "about:" then st
    else if st.bookmarks.any (fun b => b.url = a.url) then
      { st with bookmarks := st.bookmarks.filter fun b => !(b.url = a.url) }
    else
      { st with bookmarks := st.bookmarks ++
          [{ url := a.url, title := if a.title = "" then a.url else a.title,
             favicon := a.favicon, timestamp := now }] }

/-- From src/App.tsx line 196: the fresh tab object `createTab` appends. -/
def freshTab (newId url : String) : Tab :=
  { id := newId, url := url, title := "New Tab", favicon := "", history := [url],
    historyIndex := 0, isLoading := false, content := none, error := none,
    groupId := none }

/-- From src/App.tsx lines 192-200: `createTab` (the random id is a parameter). -/
def createTab (st : BrowserState) (newId : String) (url : String) : BrowserState :=
  { st with tabs := st.tabs ++ [freshTab newId url], activeTabId := newId }

/-- From src/App.tsx line 206: the in-place home reset applied when the only
tab is closed. -/
def resetHome (t : Tab) : Tab :=
  { t with url := "about:home", title := "New Tab", history := ["about:home"],
           historyIndex := 0, content := none, groupId := none }

/-- From src/App.tsx lines 202-212: `closeTab`.  `findIndex` returns `-1` when
the id is absent, hence the `Int`; `newTabs[Math.max(0, idx - 1)].id` throws a
TypeError when the index is out of range, modelled as `none`.  The single-tab
branch resets the tab in place via `resetHome` (line 206). -/
def closeTab (st : BrowserState) (id : String) : Option BrowserState :=
  if st.tabs.length = 1 then
    some { st with tabs := st.tabs.map fun t => if t.id = id then resetHome t else t }
  else
    let idx : Int := match st.tabs.findIdx? (fun t => t.id = id) with
      | some n => (n : Int)
      | none => -1
    let newTabs := st.tabs.filter fun t => !(t.id = id)
    if st.activeTabId = id then
      (newTabs[(max 0 (idx - 1)).toNat]?).map fun t =>
        { st with tabs := newTabs, activeTabId := t.id }
    else
      some { st with tabs := newTabs }

/-- From src/App.tsx line 272: clicking a tab sets `activeTabId` directly. -/
def setActiveTab (st : BrowserState) (id : String) : BrowserState :=
  { st with activeTabId := id }

/-- Lowercase a string character-wise (JS `toLowerCase` restricted to the
ASCII-style mapping of `Char.toLower`). -/
def lowerStr (s : String) : String := String.mk (s.data.map Char.toLower)

/-- Substring test on char lists: `containsSeq needle hay` is JS
`hay.includes(needle)`. -/
def containsSeq (needle : List Char) : List Char → Bool
  | [] => needle.isEmpty
  | c :: t => startsWithSeq needle (c :: t) || containsSeq needle t

/-- From src/components/BrowserContent.tsx lines 152-155: the case-insensitive
filter predicate of `sortedBookmarks`. -/
def bookmarkMatches (q : String) (b : Bookmark) : Bool :=
  containsSeq (lowerStr q).data (lowerStr b.title).data ||
    containsSeq (lowerStr q).data (lowerStr b.url).data

/-- The three values of the `bookmarkSort` local state
(src/components/BrowserContent.tsx line 84). -/
inductive BookmarkSortKey where
  | name
  | url
  | date
deriving Repr, DecidableEq

/-- From src/components/BrowserContent.tsx lines 151-164: `sortedBookmarks`.
`localeCompare` is modelled as the code-point string order and the stable
`Array.prototype.sort` as `List.mergeSort`. -/
def sortedBookmarks (bookmarkItems : List Bookmark) (bookmarkQuery : String)
    (bookmarkSort : BookmarkSortKey) : List Bookmark :=
  let filtered := bookmarkItems.filter (bookmarkMatches bookmarkQuery)
  match bookmarkSort with
  | .name => filtered.mergeSort fun a b => lexLe a.title.data b.title.data
  | .url => filtered.mergeSort fun a b => lexLe a.url.data b.url.data
  | .date => filtered.mergeSort fun a b => decide (b.timestamp ≤ a.timestamp)

/-- The per-tab history invariant of the spec (§3): `history` non-empty and
the cursor in range. -/
def TabInv (t : Tab) : Prop := t.history ≠ [] ∧ t.historyIndex < t.history.length

instance (t : Tab) : Decidable (TabInv t) := by unfold TabInv; infer_instance

/-- The session-wide history invariant: every tab satisfies `TabInv`. -/
def StateInv (st : BrowserState) : Prop := ∀ t ∈ st.tabs, TabInv t

instance (st : BrowserState) : Decidable (StateInv st) :=
  List.decidableBAll TabInv st.tabs

/-! ### Helper lemmas -/

theorem startsWithSeq_iff (n h : List Char) :
    startsWithSeq n h = true ↔ ∃ t, n ++ t = h := by
  induction n generalizing h with
  | nil => simp [startsWithSeq]
  | cons a as ih =>
    cases h with
    | nil => simp [startsWithSeq]
    | cons b bs =>
      simp only [startsWithSeq, Bool.and_eq_true, decide_eq_true_eq, ih bs]
      constructor
      · rintro ⟨rfl, t, rfl⟩; exact ⟨t, rfl⟩
      · rintro ⟨t, ht⟩; cases ht; exact ⟨rfl, t, rfl⟩

theorem containsSeq_iff (n h : List Char) :
    containsSeq n h = true ↔ ∃ s t, s ++ n ++ t = h := by
  induction h with
  | nil =>
    simp only [containsSeq, List.isEmpty_iff]
    constructor
    · rintro rfl; exact ⟨[], [], rfl⟩
    · rintro ⟨s, t, ht⟩
      rcases List.append_eq_nil.mp ht with ⟨h1, -⟩
      exact (List.append_eq_nil.mp h1).2
  | cons c cs ih =>
    simp only [containsSeq, Bool.or_eq_true, startsWithSeq_iff, ih]
    constructor
    · rintro (⟨t, ht⟩ | ⟨s, t, rfl⟩)
      · exact ⟨[], t, by simpa using ht⟩
      · exact ⟨c :: s, t, rfl⟩
    · rintro ⟨s, t, ht⟩
      cases s with
      | nil => exact Or.inl ⟨t, by simpa using ht⟩
      | cons a as =>
        rw [List.cons_append, List.cons_append, List.cons.injEq] at ht
        exact Or.inr ⟨as, t, ht.2⟩

theorem updateActiveTab_getElem? (st : BrowserState) (f : Tab → Tab) (i : Nat) :
    (updateActiveTab st f).tabs[i]? =
      (st.tabs[i]?).map fun t => if t.id = st.activeTabId then f t else t := by
  simp [updateActiveTab]

/-! ### Claim C2: internal-page classification -/

/-- The normalization the spec describes for claim C2: a `chrome://` scheme
prefix is rewritten to the canonical `about:` form. -/
def normalizeScheme (s : String) : String :=
  if jsStartsWith s "chrome://" then "about:" ++ String.mk (s.data.drop 9) else s

/-- Modelled from the spec words of claim C2: the seven internal page
identifiers. -/
def specSevenIds : List String :=
  ["about:home", "about:history", "about:bookmarks", "about:downloads",
   "about:downloads-folder", "about:version", "about:settings"]

/-- Modelled from the spec words of claim C2: internal exactly when the
normalized string matches one of the seven identifiers. -/
def specInternal (s : String) : Bool := specSevenIds.contains (normalizeScheme s)

/-- The amended classification: the six `about:` identifiers the code lists
literally, or any string starting with `chrome://`. -/
def amendedInternal (s : String) : Bool :=
  ["about:history", "about:home", "about:bookmarks", "about:downloads",
   "about:downloads-folder", "about:version"].contains s || jsStartsWith s "chrome://"

theorem isInternalTarget_eq_amended (s : String) :
    isInternalTarget s = amendedInternal s := by
  by_cases h : jsStartsWith s "chrome://" = true
  · simp [isInternalTarget, amendedInternal, h]
  · have h2 : s ≠ "chrome://settings" := by rintro rfl; exact h (by decide)
    have h3 : s ≠ "chrome://version" := by rintro rfl; exact h (by decide)
    simp only [isInternalTarget, amendedInternal, internalPages,
      Bool.eq_false_iff.mpr h, Bool.or_false]
    simp [List.contains_eq_any_beq, h2, h3]

/-- Claim C2 as stated is false of the code: `about:settings` normalizes to
itself and is one of the spec's seven identifiers, yet the controller does not
classify it as internal — it rewrites it into a Google-search URL and invokes
the Content Provider on it; conversely `chrome://newtab` is not one of the
seven after normalization yet the controller handles it internally (no fetch). -/
theorem c2_counterexample :
    specInternal "about:settings" = true ∧
    isInternalTarget "about:settings" = false ∧
    (handleNavigate initialState "about:settings" false).2 =
      some "https://www.google.com/search?q=about%3Asettings" ∧
    isInternalTarget "chrome://newtab" = true ∧
    specInternal "chrome://newtab" = false ∧
    (handleNavigate initialState "chrome://newtab" false).2 = none := by decide

/-- Claim C2 amended: a non-empty trimmed target is classified internal (no
Content Provider fetch is issued) exactly when it literally matches one of the
six identifiers `about:history`, `about:home`, `about:bookmarks`,
`about:downloads`, `about:downloads-folder`, `about:version`, or starts with
`chrome://` (any such string, recognized or not, is normalized by rewriting
the first `chrome://` to `about:` and handled internally); `about:settings`
is recognized only in its `chrome://settings` spelling. -/
theorem c2_amended_internal_classification (st : BrowserState) (targetUrl : String)
    (h : ¬ jsTrim targetUrl = "") :
    ((handleNavigate st targetUrl false).2 = none ↔
      amendedInternal (jsTrim targetUrl) = true) ∧
    (∀ s, isInternalTarget s = amendedInternal s) := by
  refine ⟨?_, isInternalTarget_eq_amended⟩
  rw [handleNavigate]
  simp only [if_neg h]
  rw [isInternalTarget_eq_amended]
  by_cases hi : amendedInternal (jsTrim targetUrl) = true
  · simp [hi]
  · simp [Bool.eq_false_iff.mpr hi, hi]

/-- Witness for `c2_amended_internal_classification` at a concrete input. -/
theorem c2_witness :
    ((handleNavigate initialState "chrome://newtab" false).2 = none ↔
      amendedInternal (jsTrim "chrome://newtab") = true) ∧
    (∀ s, isInternalTarget s = amendedInternal s) :=
  c2_amended_internal_classification initialState "chrome://newtab" (by decide)

/-! ### Claim C1: completion reconciliation target -/

/-- The scenario refuting the reconciliation contract: two tabs, a navigation
issued while tab "1" is active, then the user activates tab "2" before the
fetch settles. -/
def c1State : BrowserState :=
  setActiveTab
    ((handleNavigate (setActiveTab (createTab initialState "2" "about:home") "1")
        "example.com" false).1)
    "2"

/-- Claim C1 fails on the code: the navigation was issued on tab "1", which
still exists when the fetch settles, yet the failure callback keys on the
completion-time `activeTabId` and writes the error into tab "2", leaving
tab "1" stuck loading — so a completion is not reconciled into the issuing
tab and does modify another tab's fields. -/
theorem c1_completion_targets_active_tab_bug :
    (c1State.tabs.map fun t => (t.id, t.isLoading, t.error)) =
      [("1", true, none), ("2", false, none)] ∧
    ((navFailure c1State).tabs.map fun t => (t.id, t.isLoading, t.error)) =
      [("1", true, none),
       ("2", false, some "Connection reset by peer. (Chromium Error)")] := by decide

/-! ### Claim C5: failure handler effects -/

/-- Claim C5: the fetch-failure callback sets the targeted tab's `isLoading`
to false and its `error` to the fixed message, leaves that tab's `content`
(and every other field) unchanged, leaves every other tab untouched, and
leaves bookmarks, global history, downloads, groups and the active-tab pointer
unchanged.  (The targeted tab is the one whose id is the completion-time
`activeTabId`; that this can differ from the issuing tab is claim C1.) -/
theorem c5_failure_handler_effects (st : BrowserState) :
    (navFailure st).activeTabId = st.activeTabId ∧
    (navFailure st).bookmarks = st.bookmarks ∧
    (navFailure st).globalHistory = st.globalHistory ∧
    (navFailure st).downloads = st.downloads ∧
    (navFailure st).tabGroups = st.tabGroups ∧
    (navFailure st).devToolsOpen = st.devToolsOpen ∧
    ∀ i : Nat, (navFailure st).tabs[i]? =
      (st.tabs[i]?).map fun t =>
        if t.id = st.activeTabId then
          { t with isLoading := false,
                   error := some "Connection reset by peer. (Chromium Error)" }
        else t := by
  refine ⟨rfl, rfl, rfl, rfl, rfl, rfl, fun i => ?_⟩
  simp [navFailure]

/-! ### Claim C3: per-tab history bookkeeping -/

theorem navHistory_spec (t : Tab) (b : Bool) (u : String) (hinv : TabInv t) :
    (b = false →
      navHistory t b u = t.history.take (t.historyIndex + 1) ++ [u] ∧
      (navHistory t b u).length = t.historyIndex + 2 ∧
      navHistoryIndex t b = (navHistory t b u).length - 1) ∧
    (b = true → navHistory t b u = t.history ∧ navHistoryIndex t b = t.historyIndex) := by
  constructor
  · rintro rfl
    refine ⟨rfl, ?_, ?_⟩ <;>
      simp [navHistory, navHistoryIndex, List.length_take,
        Nat.min_eq_left (Nat.succ_le_of_lt hinv.2)]
  · rintro rfl; exact ⟨rfl, rfl⟩

/-- Claim C3: a non-empty navigation on the tab the call operates on (the one
whose id is the active id), assuming the history invariant: with
`fromHistory = false` the history is truncated to `historyIndex + 1` entries
and the resolved URL appended, giving length `historyIndex + 2` and cursor
`history.length - 1`; with `fromHistory = true` both are left untouched.
This covers the internal-page and content-fetch branches alike. -/
theorem c3_history_bookkeeping (st : BrowserState) (targetUrl : String) (fromHistory : Bool)
    (i : Nat) (hi : i < st.tabs.length) (hid : (st.tabs[i]).id = st.activeTabId)
    (hinv : TabInv st.tabs[i]) (hne : ¬ jsTrim targetUrl = "") :
    ∃ t', ((handleNavigate st targetUrl fromHistory).1).tabs[i]? = some t' ∧
      (fromHistory = false →
        (∃ u, t'.history = (st.tabs[i]).history.take ((st.tabs[i]).historyIndex + 1) ++ [u]) ∧
        t'.history.length = (st.tabs[i]).historyIndex + 2 ∧
        t'.historyIndex = t'.history.length - 1) ∧
      (fromHistory = true →
        t'.history = (st.tabs[i]).history ∧ t'.historyIndex = (st.tabs[i]).historyIndex) := by
  rw [handleNavigate]
  simp only [if_neg hne]
  by_cases hint : isInternalTarget (jsTrim targetUrl) = true
  · simp only [hint, if_true]
    rw [updateActiveTab_getElem?, List.getElem?_eq_getElem hi]
    simp only [Option.map_some', hid, if_true, if_pos rfl]
    refine ⟨_, rfl, ?_, ?_⟩
    · intro hb
      obtain ⟨h1, h2, h3⟩ := (navHistory_spec (st.tabs[i]) fromHistory _ hinv).1 hb
      exact ⟨⟨_, h1⟩, h2, h3⟩
    · intro hb
      exact (navHistory_spec (st.tabs[i]) fromHistory _ hinv).2 hb
  · simp only [Bool.not_eq_true] at hint
    simp only [hint, Bool.false_eq_true, if_false]
    rw [updateActiveTab_getElem?, List.getElem?_eq_getElem hi]
    simp only [Option.map_some', hid, if_pos rfl]
    refine ⟨_, rfl, ?_, ?_⟩
    · intro hb
      obtain ⟨h1, h2, h3⟩ := (navHistory_spec (st.tabs[i]) fromHistory _ hinv).1 hb
      exact ⟨⟨_, h1⟩, h2, h3⟩
    · intro hb
      exact (navHistory_spec (st.tabs[i]) fromHistory _ hinv).2 hb

/-- Witness for `c3_history_bookkeeping`: the spec's own worked example,
`navigate("wikipedia.org")` on a fresh tab. -/
theorem c3_witness :
    ∃ t', ((handleNavigate initialState "wikipedia.org" false).1).tabs[0]? = some t' ∧
      (false = false →
        (∃ u, t'.history = ["about:home"].take (0 + 1) ++ [u]) ∧
        t'.history.length = 0 + 2 ∧
        t'.historyIndex = t'.history.length - 1) ∧
      (false = true → t'.history = ["about:home"] ∧ t'.historyIndex = 0) :=
  c3_history_bookkeeping initialState "wikipedia.org" false 0 (by decide) (by decide)
    (by decide) (by decide)

/-! ### Claim C4: closeTab -/

theorem findIdx?_append_match (p : Tab → Bool) (t : Tab) (post : List Tab)
    (pre : List Tab) (i : Nat) (hpre : ∀ u ∈ pre, ¬ p u = true) (ht : p t = true) :
    (pre ++ t :: post).findIdx? p i = some (i + pre.length) := by
  induction pre generalizing i with
  | nil => simp [List.findIdx?_cons, ht]
  | cons a as ih =>
    have ha : ¬ p a = true := hpre a (by simp)
    rw [List.cons_append, List.findIdx?_cons, if_neg ha,
      ih (i + 1) (fun u hu => hpre u (List.mem_cons_of_mem _ hu))]
    congr 1
    simp [List.length_cons]
    omega

theorem filter_erase_middle (id : String) (t : Tab) (pre post : List Tab)
    (hpre : ∀ u ∈ pre, ¬ u.id = id) (hpost : ∀ u ∈ post, ¬ u.id = id) (ht : t.id = id) :
    (pre ++ t :: post).filter (fun u => !(u.id = id)) = pre ++ post := by
  rw [List.filter_append, List.filter_cons]
  rw [List.filter_eq_self.mpr (fun u hu => by simpa using hpre u hu),
      List.filter_eq_self.mpr (fun u hu => by simpa using hpost u hu)]
  simp [ht]

theorem int_max_toNat (n : Nat) : (max 0 ((n : Int) - 1)).toNat = n - 1 := by omega

/-- Claim C4: closing the only tab keeps exactly one tab, reset in place to
the home state (`url = about:home`, `history = [about:home]`,
`historyIndex = 0`, no content, no group); closing one of several tabs
removes it, and when it was active the new active tab is the one at index
`closedIndex - 1` (clipped at 0, i.e. `pre.length - 1` in `Nat`) of the
remaining list.  `pre`/`post` split the tab list around the closed tab
(`closedIndex = pre.length`); the uniqueness hypotheses mirror the unique-id
discipline of tab creation. -/
theorem c4_closeTab_behavior :
    (∀ st t, st.tabs = [t] →
      ∃ st', closeTab st t.id = some st' ∧
        st'.tabs = [{ t with url := "about:home", title := "New Tab",
                             history := ["about:home"], historyIndex := 0,
                             content := none, groupId := none }] ∧
        st'.activeTabId = st.activeTabId ∧ st'.bookmarks = st.bookmarks ∧
        st'.globalHistory = st.globalHistory) ∧
    (∀ st id pre t post, st.tabs = pre ++ t :: post → t.id = id →
      (∀ u ∈ pre, ¬ u.id = id) → (∀ u ∈ post, ¬ u.id = id) → pre ++ post ≠ [] →
      ∃ st', closeTab st id = some st' ∧ st'.tabs = pre ++ post ∧
        (st.activeTabId = id →
          ∃ u, (pre ++ post)[pre.length - 1]? = some u ∧ st'.activeTabId = u.id) ∧
        (¬ st.activeTabId = id → st'.activeTabId = st.activeTabId)) := by
  constructor
  · intro st t hst
    rw [closeTab]
    rw [if_pos (by rw [hst]; rfl)]
    refine ⟨_, rfl, ?_, rfl, rfl, rfl⟩
    rw [hst]
    simp [resetHome]
  · intro st id pre t post hst hid hpre hpost hne
    have hne' : (pre ++ post).length ≠ 0 := fun h => hne (List.length_eq_zero.mp h)
    have hlen : st.tabs.length ≠ 1 := by
      rw [hst]
      simp only [List.length_append, List.length_cons] at hne' ⊢
      omega
    rw [closeTab, if_neg hlen, hst]
    rw [findIdx?_append_match (fun u => u.id = id) t post pre 0
      (by simpa using hpre) (by simp [hid])]
    rw [filter_erase_middle id t pre post hpre hpost hid]
    simp only [Nat.zero_add]
    by_cases hact : st.activeTabId = id
    · rw [if_pos hact]
      have hidx : pre.length - 1 < (pre ++ post).length := by
        simp only [List.length_append] at hne' ⊢
        omega
      rw [int_max_toNat]
      rw [List.getElem?_eq_getElem hidx]
      refine ⟨_, rfl, rfl, fun _ => ⟨_, rfl, rfl⟩,
        fun h => absurd hact h⟩
    · rw [if_neg hact]
      exact ⟨_, rfl, rfl, fun h => absurd h hact, fun _ => rfl⟩

/-- The tab of `initialState` (used by concrete witnesses). -/
def homeTab : Tab :=
  { id := "1", url := "about:home", title := "New Tab", favicon := "",
    history := ["about:home"], historyIndex := 0, isLoading := false,
    content := none, error := none, groupId := none }

/-- The tab `createTab` appends for id "2" and url `about:home`. -/
def tabTwo : Tab :=
  { id := "2", url := "about:home", title := "New Tab", favicon := "",
    history := ["about:home"], historyIndex := 0, isLoading := false,
    content := none, error := none, groupId := none }

/-- Witness for `c4_closeTab_behavior`: closing the only tab of the initial
session, and closing tab "1" of a two-tab session. -/
theorem c4_witness :
    (∃ st', closeTab initialState homeTab.id = some st' ∧
      st'.tabs = [{ homeTab with
                      url := "about:home", title := "New Tab",
                      history := ["about:home"], historyIndex := 0,
                      content := none, groupId := none }] ∧
      st'.activeTabId = initialState.activeTabId ∧
      st'.bookmarks = initialState.bookmarks ∧
      st'.globalHistory = initialState.globalHistory) ∧
    (∃ st', closeTab (createTab initialState "2" "about:home") "1" = some st' ∧
      st'.tabs = [] ++ [tabTwo] ∧
      ((createTab initialState "2" "about:home").activeTabId = "1" →
        ∃ u, (([] : List Tab) ++ [tabTwo])[List.length ([] : List Tab) - 1]? = some u ∧
          st'.activeTabId = u.id) ∧
      (¬ (createTab initialState "2" "about:home").activeTabId = "1" →
        st'.activeTabId = (createTab initialState "2" "about:home").activeTabId)) :=
  ⟨c4_closeTab_behavior.1 initialState homeTab (by decide),
   c4_closeTab_behavior.2 (createTab initialState "2" "about:home") "1" [] homeTab [tabTwo]
     (by decide) (by decide) (by decide) (by decide) (by decide)⟩

/-- The bookmark record `toggleBookmark` appends (src/App.tsx line 187). -/
def newBookmark (a : Tab) (now : Nat) : Bookmark :=
  { url := a.url, title := if a.title = "" then a.url else a.title,
    favicon := a.favicon, timestamp := now }

theorem toggleBookmark_frame (st : BrowserState) (now : Nat) :
    (toggleBookmark st now).tabs = st.tabs ∧
    (toggleBookmark st now).activeTabId = st.activeTabId := by
  rw [toggleBookmark]
  cases h : activeTabOf st with
  | none => exact ⟨rfl, rfl⟩
  | some a =>
    by_cases h1 : jsStartsWith a.url "about:" = true
    · simp [h1]
    · simp only [Bool.not_eq_true] at h1
      simp only [h1, Bool.false_eq_true, if_false]
      by_cases h2 : st.bookmarks.any (fun b => b.url = a.url) = true
      · simp [h2]
      · simp only [Bool.not_eq_true] at h2
        simp [h2]

theorem activeTabOf_toggleBookmark (st : BrowserState) (now : Nat) :
    activeTabOf (toggleBookmark st now) = activeTabOf st := by
  have h := toggleBookmark_frame st now
  rw [activeTabOf, activeTabOf, h.1, h.2]

theorem toggleBookmark_about_noop (st : BrowserState) (now : Nat) (a : Tab)
    (ha : activeTabOf st = some a) (hab : jsStartsWith a.url "about:" = true) :
    toggleBookmark st now = st := by
  rw [toggleBookmark, ha]
  simp [hab]

theorem toggleBookmark_remove (st : BrowserState) (now : Nat) (a : Tab)
    (ha : activeTabOf st = some a) (hab : jsStartsWith a.url "about:" = false)
    (hmem : st.bookmarks.any (fun b => b.url = a.url) = true) :
    (toggleBookmark st now).bookmarks =
      st.bookmarks.filter fun b => !(b.url = a.url) := by
  rw [toggleBookmark, ha]
  simp [hab, hmem]

theorem toggleBookmark_add (st : BrowserState) (now : Nat) (a : Tab)
    (ha : activeTabOf st = some a) (hab : jsStartsWith a.url "about:" = false)
    (hmem : st.bookmarks.any (fun b => b.url = a.url) = false) :
    (toggleBookmark st now).bookmarks =
      st.bookmarks ++ [newBookmark a now] := by
  rw [toggleBookmark, ha]
  simp [hab, hmem, newBookmark]

theorem any_url_filter_ne (bs : List Bookmark) (v u : String) (hvu : ¬ v = u) :
    (bs.filter fun b => !(b.url = v)).any (fun b => b.url = u) =
      bs.any fun b => b.url = u := by
  rw [List.any_filter]
  congr 1
  funext b
  by_cases hb : b.url = u
  · have h2 : ¬ b.url = v := fun h => hvu (h.symm.trans hb)
    have h3 : ¬ u = v := fun h => hvu h.symm
    simp [hb, h2, h3]
  · simp [hb]

theorem countP_url_filter_self (bs : List Bookmark) (v : String) :
    (bs.filter fun b => !(b.url = v)).countP (fun b => b.url = v) = 0 := by
  rw [List.countP_eq_zero]
  intro b hb
  have := (List.mem_filter.mp hb).2
  simpa using this

theorem countP_url_zero_of_not_any (bs : List Bookmark) (v : String)
    (h : bs.any (fun b => b.url = v) = false) :
    bs.countP (fun b => b.url = v) = 0 :=
  List.countP_eq_zero.mpr (fun b hb => by simpa using (List.any_eq_false.mp h) b hb)

theorem filter_self_of_not_any (bs : List Bookmark) (v : String)
    (h : bs.any (fun b => b.url = v) = false) :
    bs.filter (fun b => !(b.url = v)) = bs :=
  List.filter_eq_self.mpr (fun b hb => by simpa using (List.any_eq_false.mp h) b hb)

/-- Claim C6: toggling the bookmark twice in a row restores the bookmark
set's membership (same set of urls, timestamps aside), and a single toggle on
a non-internal active url leaves at most one bookmark with that url — exactly
one when it was absent (added), none when it was present (removed). -/
theorem c6_toggle_bookmark_pair (st : BrowserState) (now now2 : Nat)
    (a : Tab) (ha : activeTabOf st = some a) :
    (∀ u : String, (toggleBookmark (toggleBookmark st now) now2).bookmarks.any
        (fun b => b.url = u) = st.bookmarks.any (fun b => b.url = u)) ∧
    (¬ jsStartsWith a.url "about:" = true →
      ((toggleBookmark st now).bookmarks.countP (fun b => b.url = a.url) ≤ 1) ∧
      (st.bookmarks.any (fun b => b.url = a.url) = false →
        (toggleBookmark st now).bookmarks.countP (fun b => b.url = a.url) = 1) ∧
      (st.bookmarks.any (fun b => b.url = a.url) = true →
        (toggleBookmark st now).bookmarks.countP (fun b => b.url = a.url) = 0)) := by
  have ha2 : activeTabOf (toggleBookmark st now) = some a := by
    rw [activeTabOf_toggleBookmark, ha]
  by_cases hab : jsStartsWith a.url "about:" = true
  · refine ⟨?_, fun h => absurd hab h⟩
    rw [toggleBookmark_about_noop st now a ha hab,
      toggleBookmark_about_noop st now2 a ha hab]
    intro u
    rfl
  · have hab' : jsStartsWith a.url "about:" = false := Bool.not_eq_true _ |>.mp hab
    by_cases hmem : st.bookmarks.any (fun b => b.url = a.url) = true
    · have h1 := toggleBookmark_remove st now a ha hab' hmem
      have hmem2 : (toggleBookmark st now).bookmarks.any (fun b => b.url = a.url) = false := by
        rw [h1]
        simp
      have h2 := toggleBookmark_add (toggleBookmark st now) now2 a ha2 hab' hmem2
      refine ⟨?_, fun _ => ⟨?_, ?_, ?_⟩⟩
      · intro u
        rw [h2, h1]
        by_cases hu : a.url = u
        · subst hu
          simp [newBookmark, hmem]
        · rw [List.any_append, any_url_filter_ne st.bookmarks a.url u hu]
          have hnb : (([newBookmark a now2] : List Bookmark).any fun b => b.url = u) = false := by
            simp [newBookmark, hu]
          rw [hnb, Bool.or_false]
      · rw [h1, countP_url_filter_self]
        omega
      · intro habs
        simp [habs] at hmem
      · intro _
        rw [h1, countP_url_filter_self]
    · have hmem' : st.bookmarks.any (fun b => b.url = a.url) = false :=
        Bool.not_eq_true _ |>.mp hmem
      have h1 := toggleBookmark_add st now a ha hab' hmem'
      have hmem2 : (toggleBookmark st now).bookmarks.any (fun b => b.url = a.url) = true := by
        rw [h1]
        simp [newBookmark]
      have h2 := toggleBookmark_remove (toggleBookmark st now) now2 a ha2 hab' hmem2
      have hback : (toggleBookmark (toggleBookmark st now) now2).bookmarks = st.bookmarks := by
        rw [h2, h1, List.filter_append,
          filter_self_of_not_any st.bookmarks a.url hmem']
        simp [newBookmark]
      refine ⟨?_, fun _ => ⟨?_, ?_, ?_⟩⟩
      · intro u
        rw [hback]
      · rw [h1, List.countP_append,
          countP_url_zero_of_not_any st.bookmarks a.url hmem']
        simp [newBookmark]
      · intro _
        rw [h1, List.countP_append,
          countP_url_zero_of_not_any st.bookmarks a.url hmem']
        simp [newBookmark]
      · intro habs
        simp [habs] at hmem'

/-- A session whose single active tab shows a regular web page. -/
def tabA : Tab :=
  { id := "1", url := "https://a.com", title := "A", favicon := "",
    history := ["about:home", "https://a.com"], historyIndex := 1, isLoading := false,
    content := none, error := none, groupId := none }

/-- `initialState` with its tab replaced by `tabA`. -/
def stWeb : BrowserState := { initialState with tabs := [tabA] }

/-- Witness for `c6_toggle_bookmark_pair` on a concrete one-tab session. -/
theorem c6_witness :
    (∀ u : String, (toggleBookmark (toggleBookmark stWeb 5) 6).bookmarks.any
        (fun b => b.url = u) = stWeb.bookmarks.any (fun b => b.url = u)) ∧
    (((toggleBookmark stWeb 5).bookmarks.countP (fun b => b.url = tabA.url) ≤ 1) ∧
      (stWeb.bookmarks.any (fun b => b.url = tabA.url) = false →
        (toggleBookmark stWeb 5).bookmarks.countP (fun b => b.url = tabA.url) = 1) ∧
      (stWeb.bookmarks.any (fun b => b.url = tabA.url) = true →
        (toggleBookmark stWeb 5).bookmarks.countP (fun b => b.url = tabA.url) = 0)) :=
  ⟨(c6_toggle_bookmark_pair stWeb 5 6 tabA (by decide)).1,
   (c6_toggle_bookmark_pair stWeb 5 6 tabA (by decide)).2 (by decide)⟩

/-! ### Claim C10: internal pages cannot be bookmarked -/

/-- Claim C10: when the active tab's url begins with `about:` the bookmark
toggle is a complete no-op on the session state, and consequently the toggle
never creates a bookmark whose url begins with `about:` (the no-`about:`
invariant on the bookmark set is preserved). -/
theorem c10_internal_pages_not_bookmarkable (st : BrowserState) (now : Nat) :
    (∀ a, activeTabOf st = some a → jsStartsWith a.url "about:" = true →
      toggleBookmark st now = st) ∧
    ((∀ b ∈ st.bookmarks, jsStartsWith b.url "about:" = false) →
      ∀ b ∈ (toggleBookmark st now).bookmarks, jsStartsWith b.url "about:" = false) := by
  constructor
  · intro a ha hab
    exact toggleBookmark_about_noop st now a ha hab
  · intro hinv b hb
    cases ha : activeTabOf st with
    | none =>
      have hnone : toggleBookmark st now = st := by rw [toggleBookmark, ha]
      rw [hnone] at hb
      exact hinv b hb
    | some a =>
      by_cases hab : jsStartsWith a.url "about:" = true
      · rw [toggleBookmark_about_noop st now a ha hab] at hb
        exact hinv b hb
      · have hab' : jsStartsWith a.url "about:" = false := Bool.not_eq_true _ |>.mp hab
        by_cases hmem : st.bookmarks.any (fun bb => bb.url = a.url) = true
        · rw [toggleBookmark_remove st now a ha hab' hmem] at hb
          exact hinv b (List.mem_filter.mp hb).1
        · have hmem' : st.bookmarks.any (fun bb => bb.url = a.url) = false :=
            Bool.not_eq_true _ |>.mp hmem
          rw [toggleBookmark_add st now a ha hab' hmem'] at hb
          rcases List.mem_append.mp hb with h | h
          · exact hinv b h
          · have hbv : b = newBookmark a now := by simpa using h
            rw [hbv]
            simpa [newBookmark] using hab'

/-- Witness for `c10_internal_pages_not_bookmarkable`: toggling on the initial
session (active tab at `about:home`) changes nothing. -/
theorem c10_witness : toggleBookmark initialState 0 = initialState :=
  (c10_internal_pages_not_bookmarkable initialState 0).1 homeTab (by decide) (by decide)

/-! ### Claim C7: global history cap -/

/-- Claim C7: each successful content fetch prepends one entry to the global
history (newest first) and keeps only the first 100 entries, so the entries
dropped are the oldest (FIFO by count); consequently, after any sequence of
successful navigations from a state within the cap, the log never exceeds
100 entries. -/
theorem c7_history_cap (st : BrowserState)
    (completions : List (String × PageContent × Nat))
    (hcap : st.globalHistory.length ≤ 100) :
    (∀ (s : BrowserState) (u : String) (c : PageContent) (n : Nat),
      (navSuccess s u c n).globalHistory =
        { url := u, title := c.title, timestamp := n } :: s.globalHistory.take 99) ∧
    (completions.foldl (fun s x => navSuccess s x.1 x.2.1 x.2.2) st).globalHistory.length
      ≤ 100 := by
  constructor
  · intro s u c n
    rfl
  · induction completions generalizing st with
    | nil => exact hcap
    | cons x xs ih =>
      apply ih
      have hstep : (navSuccess st x.1 x.2.1 x.2.2).globalHistory.length ≤ 100 := by
        simp only [navSuccess, List.take_succ_cons, List.length_cons, List.length_take]
        omega
      exact hstep

/-- Witness for `c7_history_cap`: one successful completion on the initial
session. -/
theorem c7_witness :
    (∀ (s : BrowserState) (u : String) (c : PageContent) (n : Nat),
      (navSuccess s u c n).globalHistory =
        { url := u, title := c.title, timestamp := n } :: s.globalHistory.take 99) ∧
    ([("https://a.com", ⟨"A", "", "<html>", []⟩, 7)].foldl
        (fun s x => navSuccess s x.1 x.2.1 x.2.2) initialState).globalHistory.length
      ≤ 100 :=
  c7_history_cap initialState [("https://a.com", ⟨"A", "", "<html>", []⟩, 7)] (by decide)

/-! ### Claim C8: the per-tab history invariant is preserved -/

theorem closeTab_tabs_cases (st : BrowserState) (id : String) (st' : BrowserState)
    (hc : closeTab st id = some st') :
    st'.tabs = st.tabs.map (fun t => if t.id = id then resetHome t else t) ∨
    st'.tabs = st.tabs.filter fun t => !(t.id = id) := by
  rw [closeTab] at hc
  split at hc
  · injection hc with hc
    subst hc
    exact Or.inl rfl
  · repeat' split at hc
    all_goals
      first
        | (injection hc with hc; subst hc; exact Or.inr rfl)
        | (rcases Option.map_eq_some'.mp hc with ⟨u, hu, hback⟩
           subst hback
           exact Or.inr rfl)

theorem updateActiveTab_inv (st : BrowserState) (f : Tab → Tab)
    (h : StateInv st) (hf : ∀ t, TabInv t → TabInv (f t)) :
    StateInv (updateActiveTab st f) := by
  intro t ht
  rcases List.mem_map.mp ht with ⟨t0, ht0, heq⟩
  by_cases h0 : t0.id = st.activeTabId
  · rw [if_pos h0] at heq
    subst heq
    exact hf t0 (h t0 ht0)
  · rw [if_neg h0] at heq
    subst heq
    exact h t0 ht0

theorem navHistory_inv (t : Tab) (b : Bool) (u : String) (h : TabInv t) :
    navHistory t b u ≠ [] ∧ navHistoryIndex t b < (navHistory t b u).length := by
  cases b with
  | true => simpa [navHistory, navHistoryIndex] using h
  | false =>
    have h2 := h.2
    constructor
    · simp [navHistory]
    · simp only [navHistory, navHistoryIndex, Bool.false_eq_true, if_false,
        List.length_append, List.length_take, List.length_cons, List.length_nil]
      omega

/-- Claim C8: the per-tab history invariant (`history` non-empty,
`historyIndex < history.length`) holds in the initial session and is preserved
by every state-mutating operation: `createTab`, `closeTab` (when it does not
crash), `handleNavigate` with either `fromHistory` value (internal pages
included), both fetch-completion callbacks, `toggleBookmark` and
`setActiveTab` — hence it holds in every reachable session state. -/
theorem c8_invariant_preservation :
    StateInv initialState ∧
    (∀ st newId url, StateInv st → StateInv (createTab st newId url)) ∧
    (∀ st id st', StateInv st → closeTab st id = some st' → StateInv st') ∧
    (∀ st target b, StateInv st → StateInv (handleNavigate st target b).1) ∧
    (∀ st u c n, StateInv st → StateInv (navSuccess st u c n)) ∧
    (∀ st, StateInv st → StateInv (navFailure st)) ∧
    (∀ st n, StateInv st → StateInv (toggleBookmark st n)) ∧
    (∀ st id, StateInv st → StateInv (setActiveTab st id)) := by
  refine ⟨by decide, ?_, ?_, ?_, ?_, ?_, ?_, ?_⟩
  · intro st newId url h t ht
    rcases List.mem_append.mp ht with h1 | h1
    · exact h t h1
    · have heq : t = freshTab newId url := by simpa using h1
      subst heq
      exact ⟨by simp [freshTab], by simp [freshTab]⟩
  · intro st id st' h hc
    rcases closeTab_tabs_cases st id st' hc with htabs | htabs
    · intro t ht
      rw [htabs] at ht
      rcases List.mem_map.mp ht with ⟨t0, ht0, heq⟩
      by_cases h0 : t0.id = id
      · rw [if_pos h0] at heq
        subst heq
        exact ⟨by simp [resetHome], by simp [resetHome]⟩
      · rw [if_neg h0] at heq
        subst heq
        exact h t0 ht0
    · intro t ht
      rw [htabs] at ht
      exact h t (List.mem_filter.mp ht).1
  · intro st target b h
    by_cases hne : jsTrim target = ""
    · rw [handleNavigate]
      simp only [hne, if_pos rfl]
      exact h
    · rw [handleNavigate]
      simp only [if_neg hne]
      by_cases hint : isInternalTarget (jsTrim target) = true
      · simp only [hint, if_true]
        exact updateActiveTab_inv st _ h fun t htv => navHistory_inv t b _ htv
      · simp only [Bool.not_eq_true] at hint
        simp only [hint, Bool.false_eq_true, if_false]
        exact updateActiveTab_inv st _ h fun t htv => navHistory_inv t b _ htv
  · intro st u c n h t ht
    rcases List.mem_map.mp ht with ⟨t0, ht0, heq⟩
    by_cases h0 : t0.id = st.activeTabId
    · rw [if_pos h0] at heq
      subst heq
      exact h t0 ht0
    · rw [if_neg h0] at heq
      subst heq
      exact h t0 ht0
  · intro st h t ht
    rcases List.mem_map.mp ht with ⟨t0, ht0, heq⟩
    by_cases h0 : t0.id = st.activeTabId
    · rw [if_pos h0] at heq
      subst heq
      exact h t0 ht0
    · rw [if_neg h0] at heq
      subst heq
      exact h t0 ht0
  · intro st n h t ht
    rw [(toggleBookmark_frame st n).1] at ht
    exact h t ht
  · intro st id h t ht
    exact h t ht

/-- Witness for `c8_invariant_preservation`: the invariant holds after
creating a second tab in the initial session. -/
theorem c8_witness : StateInv (createTab initialState "2" "about:home") :=
  c8_invariant_preservation.2.1 initialState "2" "about:home" c8_invariant_preservation.1

theorem lexLe_total : ∀ (a b : List Char), (lexLe a b || lexLe b a) = true
  | [], b => by simp [lexLe]
  | a :: as, [] => by simp [lexLe]
  | x :: xs, y :: ys => by
    simp only [lexLe, Bool.or_eq_true, Bool.and_eq_true, decide_eq_true_eq]
    rcases lt_trichotomy x y with h | rfl | h
    · exact Or.inl (Or.inl h)
    · rcases Bool.or_eq_true _ _ |>.mp (lexLe_total xs ys) with h | h
      · exact Or.inl (Or.inr ⟨rfl, h⟩)
      · exact Or.inr (Or.inr ⟨rfl, h⟩)
    · exact Or.inr (Or.inl h)

theorem lexLe_trans : ∀ (a b c : List Char),
    lexLe a b = true → lexLe b c = true → lexLe a c = true
  | [], _, _, _, _ => by simp [lexLe]
  | x :: xs, [], _, h, _ => by simp [lexLe] at h
  | x :: xs, y :: ys, [], _, h2 => by simp [lexLe] at h2
  | x :: xs, y :: ys, z :: zs, h1, h2 => by
    simp only [lexLe, Bool.or_eq_true, Bool.and_eq_true, decide_eq_true_eq] at *
    rcases h1 with h1 | ⟨rfl, h1⟩
    · rcases h2 with h2 | ⟨rfl, h2⟩
      · exact Or.inl (lt_trans h1 h2)
      · exact Or.inl h1
    · rcases h2 with h2 | ⟨rfl, h2⟩
      · exact Or.inl h2
      · exact Or.inr ⟨rfl, lexLe_trans xs ys zs h1 h2⟩

theorem lexLe_iff_lex : ∀ (a b : List Char),
    lexLe a b = true ↔ (a = b ∨ List.Lex (· < ·) a b)
  | [], [] => by simp [lexLe]
  | [], y :: ys => by
    simp only [lexLe, true_iff]
    exact Or.inr List.Lex.nil
  | x :: xs, [] => by
    simp only [lexLe, Bool.false_eq_true, false_iff]
    rintro (h | h)
    · exact List.cons_ne_nil x xs h
    · cases h
  | x :: xs, y :: ys => by
    simp only [lexLe, Bool.or_eq_true, Bool.and_eq_true, decide_eq_true_eq,
      List.cons.injEq]
    constructor
    · rintro (h | ⟨rfl, h⟩)
      · exact Or.inr (List.Lex.rel h)
      · rcases (lexLe_iff_lex xs ys).mp h with rfl | h
        · exact Or.inl ⟨rfl, rfl⟩
        · exact Or.inr (List.Lex.cons h)
    · rintro (⟨rfl, rfl⟩ | h)
      · exact Or.inr ⟨rfl, (lexLe_iff_lex xs xs).mpr (Or.inl rfl)⟩
      · cases h with
        | rel h => exact Or.inl h
        | cons h => exact Or.inr ⟨rfl, (lexLe_iff_lex xs ys).mpr (Or.inr h)⟩

/-- Claim C9: `sortedBookmarks` is a pure function of (bookmarks, query,
sort key); it keeps exactly (as a permutation of the filtered list) the
bookmarks whose lowercased title or url contains the lowercased query as a
substring; with key `name` the result is lexicographically ascending by
title, with key `url` ascending by url (code-point order, modelling
`localeCompare`), and with key `date` — given pairwise-distinct timestamps —
strictly timestamp-descending. -/
theorem c9_sortedBookmarks_spec (items : List Bookmark) (q : String) :
    (∀ k, (sortedBookmarks items q k).Perm (items.filter (bookmarkMatches q))) ∧
    (∀ b, bookmarkMatches q b = true ↔
      ((∃ s t, s ++ (lowerStr q).data ++ t = (lowerStr b.title).data) ∨
       (∃ s t, s ++ (lowerStr q).data ++ t = (lowerStr b.url).data))) ∧
    (sortedBookmarks items q .name).Pairwise (fun x y =>
      x.title.data = y.title.data ∨ List.Lex (· < ·) x.title.data y.title.data) ∧
    (sortedBookmarks items q .url).Pairwise (fun x y =>
      x.url.data = y.url.data ∨ List.Lex (· < ·) x.url.data y.url.data) ∧
    ((items.filter (bookmarkMatches q)).Pairwise
        (fun x y => x.timestamp ≠ y.timestamp) →
      (sortedBookmarks items q .date).Pairwise
        (fun x y => y.timestamp < x.timestamp)) := by
  refine ⟨?_, ?_, ?_, ?_, ?_⟩
  · intro k
    cases k <;> exact List.mergeSort_perm _ _
  · intro b
    simp only [bookmarkMatches, Bool.or_eq_true, containsSeq_iff]
  · have hs := @List.sorted_mergeSort Bookmark
      (fun a b : Bookmark => lexLe a.title.data b.title.data)
      (fun a b c hab hbc => lexLe_trans _ _ _ hab hbc)
      (fun a b => lexLe_total _ _)
      (items.filter (bookmarkMatches q))
    exact hs.imp fun hab => (lexLe_iff_lex _ _).mp hab
  · have hs := @List.sorted_mergeSort Bookmark
      (fun a b : Bookmark => lexLe a.url.data b.url.data)
      (fun a b c hab hbc => lexLe_trans _ _ _ hab hbc)
      (fun a b => lexLe_total _ _)
      (items.filter (bookmarkMatches q))
    exact hs.imp fun hab => (lexLe_iff_lex _ _).mp hab
  · intro hne
    have hs := @List.sorted_mergeSort Bookmark
      (fun a b : Bookmark => decide (b.timestamp ≤ a.timestamp))
      (fun a b c hab hbc => by
        simp only [decide_eq_true_eq] at *
        omega)
      (fun a b => by
        by_cases h : b.timestamp ≤ a.timestamp
        · simp [h]
        · simp only [Bool.or_eq_true, decide_eq_true_eq]
          omega)
      (items.filter (bookmarkMatches q))
    have hne2 : (sortedBookmarks items q .date).Pairwise
        (fun x y => x.timestamp ≠ y.timestamp) :=
      (List.mergeSort_perm _ _).symm.pairwise hne fun h => h.symm
    have := hs.and hne2
    exact this.imp fun h => by
      have h1 := h.1
      have h2 := h.2
      simp only [decide_eq_true_eq] at h1
      omega

/-- A concrete bookmark list for the `c9` witness (distinct timestamps). -/
def c9L : List Bookmark :=
  [{ url := "https://b.com", title := "Beta", favicon := "", timestamp := 5 },
   { url := "https://a.com", title := "alpha", favicon := "", timestamp := 9 },
   { url := "https://c.com", title := "Gamma", favicon := "", timestamp := 7 }]

/-- Witness for `c9_sortedBookmarks_spec` on a concrete bookmark list,
discharging the distinct-timestamp hypothesis. -/
theorem c9_witness :
    ((sortedBookmarks c9L "a" .date).Pairwise fun x y => y.timestamp < x.timestamp) ∧
    (∀ k, (sortedBookmarks c9L "a" k).Perm (c9L.filter (bookmarkMatches "a"))) :=
  ⟨(c9_sortedBookmarks_spec c9L "a").2.2.2.2 (by decide),
   (c9_sortedBookmarks_spec c9L "a").1⟩
